import Mathlib

/-!
Shallow embedding of the Ames-housing XGBoost tutorial notebook
(`ai-hub-fairing-xgboost-example.ipynb`).

Modelling conventions:
* A pandas cell that may be `NaN` is `Option ℚ` (`none` = missing).
* The CSV/dataframe is a list of rows; each row has the target cell
  (`SalePrice`) plus a list of feature cells.  Column dtypes are carried
  as a list of flags (`true` = object dtype, excluded by
  `select_dtypes(exclude=['object'])`).
* `sklearn.model_selection.train_test_split` with `shuffle=False` takes
  `n_test = ceil(n * test_size)` rows from the end, keeping the first
  `n - n_test` rows for training, and requires `0 < test_size < 1` and
  both parts nonempty (it raises otherwise, modelled as `none`).
* `sklearn.impute.SimpleImputer(strategy="median")` computes the median
  of the non-missing values of each training column, drops columns whose
  training values are all missing, and fills remaining missing cells
  with the fitted per-column statistic.
* The trained regressor is opaque: a `Model` is its prediction function
  on a feature matrix.  Local disk and the GCS bucket are association
  lists from names to stored models.
-/

namespace AmesNotebook

/-- Modelled pandas cell: `none` is a missing value (`NaN`). -/
abbrev Cell := Option ℚ

/-- One CSV row: the `SalePrice` target cell plus the feature cells. -/
structure Row where
  salePrice : Cell
  features : List Cell
deriving Repr, DecidableEq

/-- Modelled dataframe: per-feature-column object-dtype flags and rows. -/
structure DataFrame where
  isObjectCol : List Bool
  rows : List Row
deriving Repr, DecidableEq

/-- Embeds `data.dropna(axis=0, subset=['SalePrice'], inplace=True)`:
keep exactly the rows whose target cell is present. -/
def droppedRows (df : DataFrame) : List Row :=
  df.rows.filter (fun r => r.salePrice.isSome)

/-- Embeds `select_dtypes(exclude=['object'])` after dropping the target
column: the indices of the feature columns that are not object-typed. -/
def numericIndices (df : DataFrame) : List ℕ :=
  (List.range df.isObjectCol.length).filter (fun i => !(df.isObjectCol.getD i true))

/-- Embeds `X = data.drop(['SalePrice'], axis=1).select_dtypes(exclude=['object'])`
restricted to the surviving rows: the raw (pre-imputation) feature matrix. -/
def rawX (df : DataFrame) : List (List Cell) :=
  (droppedRows df).map (fun r => (numericIndices df).map (fun i => r.features.getD i none))

/-- Embeds `y = data.SalePrice` on the surviving rows. -/
def rawY (df : DataFrame) : List Cell :=
  (droppedRows df).map (fun r => r.salePrice)

/-- Number of test rows chosen by `train_test_split` for a float
`test_size`: `ceil(n * test_size)` (sklearn `_validate_shuffle_split`). -/
def nTestOf (n : ℕ) (t : ℚ) : ℕ :=
  (Int.ceil ((n : ℚ) * t)).toNat

/-- Size validation of `train_test_split`: a float `test_size` must lie in
(0, 1) and neither resulting part may be empty; on success, returns the
pair (train row count, test row count). -/
def splitSizes (n : ℕ) (t : ℚ) : Option (ℕ × ℕ) :=
  if 0 < t ∧ t < 1 then
    let nTe := nTestOf n t
    let nTr := n - nTe
    if nTr = 0 ∨ nTe = 0 then none else some (nTr, nTe)
  else none

/-- Insert a value into a sorted list (ascending). -/
def insertSorted (x : ℚ) : List ℚ → List ℚ
  | [] => [x]
  | y :: ys => if x ≤ y then x :: y :: ys else y :: insertSorted x ys

/-- Sort a list of rationals ascending (insertion sort). -/
def sortList (l : List ℚ) : List ℚ :=
  l.foldr insertSorted []

/-- Median of a list of (non-missing) values, as numpy computes it on the
sorted data: the middle element for odd length, the mean of the two middle
elements for even length; undefined (`none`) on the empty list. -/
def median (l : List ℚ) : Option ℚ :=
  match l with
  | [] => none
  | _ :: _ =>
    let s := sortList l
    let k := l.length
    if k % 2 = 1 then some (s.getD (k / 2) 0)
    else some ((s.getD (k / 2 - 1) 0 + s.getD (k / 2) 0) / 2)

/-- The non-missing values of column `i` of a matrix. -/
def columnVals (M : List (List Cell)) (i : ℕ) : List ℚ :=
  M.filterMap (fun row => row.getD i none)

namespace SimpleImputer

/-- Embeds `SimpleImputer(strategy="median").fit` on a matrix of width `w`:
the per-column statistics, `none` for a column whose values are all
missing (such a column is dropped by `transform`). -/
def fit (M : List (List Cell)) (w : ℕ) : List (Option ℚ) :=
  (List.range w).map (fun i => median (columnVals M i))

/-- Embeds `SimpleImputer.transform`: keep the columns that have a fitted
statistic and fill each missing cell with its column's statistic. -/
def transform (stats : List (Option ℚ)) (w : ℕ) (M : List (List Cell)) :
    List (List Cell) :=
  M.map (fun row =>
    (((List.range w).filter (fun i => (stats.getD i none).isSome)).map
      (fun i => (row.getD i none).orElse (fun _ => stats.getD i none))))

end SimpleImputer

/-- The fitted imputer returned by `read_input`. -/
structure FittedImputer where
  statistics : List (Option ℚ)
deriving Repr, DecidableEq

/-- The value of `read_input`: `(train_X, train_y), (test_X, test_y), imputer`. -/
structure ReadResult where
  trainX : List (List Cell)
  trainY : List Cell
  testX : List (List Cell)
  testY : List Cell
  imputer : FittedImputer
deriving Repr, DecidableEq

/-- Embeds `read_input(file_name, test_size=0.25)`: drop rows with a
missing target, take the numeric feature columns, split without
shuffling, fit the median imputer on the training part only and apply it
to both parts.  `none` models the exception raised by `train_test_split`
on an invalid size. -/
def read_input (df : DataFrame) (t : ℚ := 1/4) : Option ReadResult :=
  match splitSizes (rawX df).length t with
  | none => none
  | some (nTr, _) =>
    let trX := (rawX df).take nTr
    let teX := (rawX df).drop nTr
    let w := (numericIndices df).length
    let stats := SimpleImputer.fit trX w
    some ⟨SimpleImputer.transform stats w trX, (rawY df).take nTr,
          SimpleImputer.transform stats w teX, (rawY df).drop nTr, ⟨stats⟩⟩

/-- Opaque trained regressor: all that the notebook uses of it is its
prediction function on a feature matrix (one prediction per row). -/
abbrev Model := List (List ℚ) → List ℚ

/-- Local disk and the GCS bucket, modelled as stores of serialized
models.  `joblib.dump`/`joblib.load` are lossless, so a stored file is
identified with the model value it serializes.  A bucket entry also
records the bucket name used by `upload_file_to_gcs`. -/
structure World where
  localDisk : List (String × Model)
  bucket : List (String × String × Model)

/-- The fields set by `HousingServe.__init__`. -/
structure HousingState where
  train_input : String
  n_estimators : ℕ
  learning_rate : ℚ
  model_file : String
  trained_model : Option Model

/-- Embeds `HousingServe.__init__`. -/
def HousingServe.init : HousingState :=
  { train_input := "ames_dataset/train.csv"
    n_estimators := 50
    learning_rate := 1/10
    model_file := "trained_ames_model.dat"
    trained_model := none }

/-- Embeds `HousingServe.predict(self, X, feature_names)`.  The guard
`if not self.trained_model` is a `None` test here (a loaded regressor
object is always truthy in Python); on the first call the model is read
from the local file `self.model_file` (`none` output models the
exception when the file is absent).  `prediction.item(0)` is the first
entry of the prediction vector (`none` output models the `IndexError`
on an empty one); the returned value is the single duplicated pair
(the argument `feature_names` is never used by the body)
`[[prediction.item(0), prediction.item(0)]]`. -/
def HousingServe.predict (s : HousingState) (w : World) (X : List (List ℚ))
    (feature_names : List String) : Option (List (List ℚ)) × HousingState :=
  match s.trained_model with
  | some m =>
    match (m X).head? with
    | some p => (some [[p, p]], s)
    | none => (none, s)
  | none =>
    match w.localDisk.lookup s.model_file with
    | none => (none, s)
    | some m =>
      let s2 : HousingState := { s with trained_model := some m }
      match (m X).head? with
      | some p => (some [[p, p]], s2)
      | none => (none, s2)

/-- Embeds `save_model(model, model_file)`: `joblib.dump` writes the
serialized model to the local file. -/
def save_model (m : Model) (model_file : String) (w : World) : World :=
  { w with localDisk := (model_file, m) :: w.localDisk }

/-- Embeds `upload_file_to_gcs(bucket_name, source_file_name,
destination_file_name)`: reads the local source file and stores its
content under the destination key in the bucket.  `netOk` models whether
the network transfer succeeds; the `Bool` result is success (Python
raises instead, leaving the world as returned here). -/
def upload_file_to_gcs (bucket_name source_file_name destination_file_name : String)
    (netOk : Bool) (w : World) : World × Bool :=
  match w.localDisk.lookup source_file_name with
  | none => (w, false)
  | some m =>
    if netOk then
      ({ w with bucket := (bucket_name, destination_file_name, m) :: w.bucket }, true)
    else (w, false)

/-- Observable persistence events of `HousingServe.train`, in order. -/
inductive TrainEvent where
  | saveLocal (file : String)
  | uploadToBucket (bucket source dest : String)
deriving Repr, DecidableEq

/-- Result of a `HousingServe.train` run: final world, the ordered
persistence events that were started, and whether the run succeeded. -/
structure TrainOutcome where
  world : World
  events : List TrainEvent
  ok : Bool

/-- Embeds `HousingServe.train(self)`.  `df` is the content of the CSV at
`self.train_input`; `fitRegressor` abstracts `train_model` (the external
XGBoost fit, taking the train/eval data and the two hyperparameters);
`eval_model` only logs the mean absolute error and is stateless.  The
model is saved to the local `self.model_file` and then the local file is
uploaded to the bucket under the same name. -/
def HousingServe.train (s : HousingState) (df : DataFrame)
    (fitRegressor : List (List Cell) → List Cell → List (List Cell) → List Cell →
      ℕ → ℚ → Model)
    (netOk : Bool) (gcsBucketId : String) (w : World) : TrainOutcome :=
  match read_input df with
  | none => ⟨w, [], false⟩
  | some res =>
    let model := fitRegressor res.trainX res.trainY res.testX res.testY
      s.n_estimators s.learning_rate
    let w1 := save_model model s.model_file w
    let up := upload_file_to_gcs gcsBucketId s.model_file s.model_file netOk w1
    ⟨up.1, [.saveLocal s.model_file,
            .uploadToBucket gcsBucketId s.model_file s.model_file], up.2⟩

/-! Test fixtures: a two-row dataframe with one numeric feature column,
a second one differing only in the held-out row, and concrete models. -/

/-- Two-row fixture dataframe. -/
def dfW : DataFrame :=
  ⟨[false], [⟨some 100, [some 1]⟩, ⟨some 200, [some 2]⟩]⟩

/-- Fixture dataframe equal to `dfW` on the training row, different on
the test row. -/
def dfW2 : DataFrame :=
  ⟨[false], [⟨some 100, [some 1]⟩, ⟨some 300, [some 7]⟩]⟩

/-- The value `read_input` produces on `dfW`. -/
def resW : ReadResult :=
  ⟨[[some 1]], [some 100], [[some 2]], [some 200], ⟨[some 1]⟩⟩

/-- The value `read_input` produces on `dfW2`. -/
def resW2 : ReadResult :=
  ⟨[[some 1]], [some 100], [[some 7]], [some 300], ⟨[some 1]⟩⟩

/-- Fixture model: predicts the first feature of each row. -/
def mW : Model := fun rows => rows.map (fun row => row.headD 0)

/-- Empty world fixture. -/
def wEmpty : World := ⟨[], []⟩

/-- A serving object whose model is already loaded. -/
def sLoaded : HousingState := { HousingServe.init with trained_model := some mW }

theorem nTestOf_two_quarter : nTestOf 2 (1/4) = 1 := by
  have hc : Int.ceil (((2:ℕ) : ℚ) * (1/4)) = 1 := by
    rw [Int.ceil_eq_iff]
    constructor
    · push_cast; norm_num
    · push_cast; norm_num
  unfold nTestOf
  rw [hc]
  rfl

theorem splitSizes_two_quarter : splitSizes 2 (1/4) = some (1, 1) := by
  unfold splitSizes
  rw [if_pos (by norm_num), nTestOf_two_quarter]
  rfl

theorem read_input_dfW : read_input dfW (1/4) = some resW := by
  have hlen : (rawX dfW).length = 2 := by rfl
  rw [read_input, hlen, splitSizes_two_quarter]
  rfl

theorem read_input_dfW2 : read_input dfW2 (1/4) = some resW2 := by
  have hlen : (rawX dfW2).length = 2 := by rfl
  rw [read_input, hlen, splitSizes_two_quarter]
  rfl

/-! Inversion lemmas for the pipeline. -/

theorem splitSizes_inv {n : ℕ} {t : ℚ} {nTr nTe : ℕ}
    (h : splitSizes n t = some (nTr, nTe)) :
    0 < t ∧ t < 1 ∧ nTe = nTestOf n t ∧ nTr = n - nTe ∧ nTr ≠ 0 ∧ nTe ≠ 0 := by
  unfold splitSizes at h
  by_cases hc : 0 < t ∧ t < 1
  · rw [if_pos hc] at h
    by_cases hz : n - nTestOf n t = 0 ∨ nTestOf n t = 0
    · rw [if_pos hz] at h
      exact absurd h (by simp)
    · rw [if_neg hz] at h
      have h3 := Option.some.inj h
      have h4 : nTr = n - nTestOf n t := (congrArg Prod.fst h3).symm
      have h5 : nTe = nTestOf n t := (congrArg Prod.snd h3).symm
      push_neg at hz
      refine ⟨hc.1, hc.2, h5, by omega, by omega, by omega⟩
  · rw [if_neg hc] at h
    exact absurd h (by simp)

theorem read_input_inv {df : DataFrame} {t : ℚ} {r : ReadResult}
    (h : read_input df t = some r) :
    ∃ nTr nTe, splitSizes (rawX df).length t = some (nTr, nTe) ∧
      r.trainY = (rawY df).take nTr ∧
      r.testY = (rawY df).drop nTr ∧
      r.trainX = SimpleImputer.transform
        (SimpleImputer.fit ((rawX df).take nTr) (numericIndices df).length)
        (numericIndices df).length ((rawX df).take nTr) ∧
      r.testX = SimpleImputer.transform
        (SimpleImputer.fit ((rawX df).take nTr) (numericIndices df).length)
        (numericIndices df).length ((rawX df).drop nTr) ∧
      r.imputer = ⟨SimpleImputer.fit ((rawX df).take nTr) (numericIndices df).length⟩ := by
  rw [read_input] at h
  split at h
  · exact absurd h (by simp)
  · next nTr nTe heq =>
    obtain rfl := Option.some.inj h
    exact ⟨nTr, nTe, heq, rfl, rfl, rfl, rfl, rfl⟩

/-- Every cell produced by `SimpleImputer.transform` is present: kept
columns have a fitted statistic, which fills any missing cell. -/
theorem transform_isSome (stats : List (Option ℚ)) (w : ℕ) (M : List (List Cell)) :
    ∀ row ∈ SimpleImputer.transform stats w M, ∀ c ∈ row, c.isSome := by
  intro row hrow c hc
  simp only [SimpleImputer.transform, List.mem_map] at hrow
  obtain ⟨orig, _, rfl⟩ := hrow
  simp only [List.mem_map] at hc
  obtain ⟨i, hi, rfl⟩ := hc
  have hstat : (stats.getD i none).isSome := by
    have hmem := List.mem_filter.mp hi
    simpa using hmem.2
  cases horig : orig.getD i none with
  | some v => rfl
  | none => exact hstat

/-- The raw training partition chosen by `read_input` at fraction `t`
(before imputation): the initial block of `n - ceil(n*t)` rows. -/
def trainRaw (df : DataFrame) (t : ℚ) : List (List Cell) :=
  (rawX df).take ((rawX df).length - nTestOf (rawX df).length t)

/-- C2: the imputation statistics (and the imputed training matrix) are
a function of the training partition alone: two runs whose raw training
partitions and feature-column counts agree produce identical fitted
statistics and identical imputed training matrices, whatever their test
partitions hold. -/
theorem imputer_stats_invariant_to_test (d1 d2 : DataFrame) (t : ℚ)
    (r1 r2 : ReadResult) (h1 : read_input d1 t = some r1)
    (h2 : read_input d2 t = some r2)
    (hTrain : trainRaw d1 t = trainRaw d2 t)
    (hw : (numericIndices d1).length = (numericIndices d2).length) :
    r1.imputer.statistics = r2.imputer.statistics ∧ r1.trainX = r2.trainX := by
  obtain ⟨nTr1, nTe1, hs1, _, _, hX1, _, hI1⟩ := read_input_inv h1
  obtain ⟨nTr2, nTe2, hs2, _, _, hX2, _, hI2⟩ := read_input_inv h2
  obtain ⟨_, _, hTe1, hTr1, _, _⟩ := splitSizes_inv hs1
  obtain ⟨_, _, hTe2, hTr2, _, _⟩ := splitSizes_inv hs2
  have e1 : (rawX d1).take nTr1 = trainRaw d1 t := by rw [hTr1, hTe1]; rfl
  have e2 : (rawX d2).take nTr2 = trainRaw d2 t := by rw [hTr2, hTe2]; rfl
  constructor
  · rw [hI1, hI2]
    show SimpleImputer.fit ((rawX d1).take nTr1) (numericIndices d1).length =
      SimpleImputer.fit ((rawX d2).take nTr2) (numericIndices d2).length
    rw [e1, e2, hTrain, hw]
  · rw [hX1, hX2, e1, e2, hTrain, hw]

/-- Witness for C2: `dfW` and `dfW2` share the training row and differ
in the held-out row; statistics and imputed training matrix agree. -/
theorem imputer_stats_invariant_to_test_witness :
    resW.imputer.statistics = resW2.imputer.statistics ∧ resW.trainX = resW2.trainX :=
  imputer_stats_invariant_to_test dfW dfW2 (1/4) resW resW2
    read_input_dfW read_input_dfW2
    (by unfold trainRaw
        rw [show (rawX dfW).length = 2 from rfl, show (rawX dfW2).length = 2 from rfl,
          nTestOf_two_quarter]
        rfl)
    rfl

/-- C3: the split sizes: train and test row counts sum to the number of
rows surviving the missing-target drop, and the test row count (which
is `ceil(n*t)`) is within one of `round(n*t)`. -/
theorem split_row_counts (df : DataFrame) (t : ℚ) (r : ReadResult)
    (h : read_input df t = some r) :
    r.trainY.length + r.testY.length = (droppedRows df).length ∧
    |(r.testY.length : ℤ) - round (((droppedRows df).length : ℚ) * t)| ≤ 1 := by
  obtain ⟨nTr, nTe, hs, hY1, hY2, _, _, _⟩ := read_input_inv h
  obtain ⟨ht0, _, hTe, hTr, hTrne, _⟩ := splitSizes_inv hs
  have hXlen : (rawX df).length = (droppedRows df).length := List.length_map _ _
  have hYlen : (rawY df).length = (droppedRows df).length := List.length_map _ _
  have hTrLen : r.trainY.length = nTr := by
    rw [hY1, List.length_take]
    omega
  have hTeLen : r.testY.length = nTe := by
    rw [hY2, List.length_drop]
    omega
  refine ⟨by omega, ?_⟩
  rw [hTeLen, hTe, hXlen]
  unfold nTestOf
  set x : ℚ := (((droppedRows df).length : ℚ) * t) with hx
  have hx0 : 0 ≤ x := mul_nonneg (Nat.cast_nonneg _) (le_of_lt ht0)
  have hcn : (0:ℤ) ≤ Int.ceil x := Int.ceil_nonneg hx0
  rw [Int.toNat_of_nonneg hcn]
  have hfl : Int.floor x ≤ round x := by
    rw [round_eq]
    exact Int.floor_le_floor (by linarith)
  have hcf : Int.ceil x ≤ Int.floor x + 1 := Int.ceil_le_floor_add_one x
  have hrc : round x ≤ Int.floor x + 1 := by
    rw [round_eq]
    have hmono : Int.floor (x + 1/2) ≤ Int.floor (x + 1) := Int.floor_le_floor (by linarith)
    rw [Int.floor_add_one] at hmono
    exact hmono
  have hfc : Int.floor x ≤ Int.ceil x := Int.floor_le_ceil x
  rw [abs_le]
  constructor <;> linarith

/-- Witness for C3: on the two-row fixture, 1 + 1 = 2 rows and the test
count 1 is within one of `round(2 * 1/4)`. -/
theorem split_row_counts_witness :
    resW.trainY.length + resW.testY.length = (droppedRows dfW).length ∧
    |(resW.testY.length : ℤ) - round (((droppedRows dfW).length : ℚ) * (1/4))| ≤ 1 :=
  split_row_counts dfW (1/4) resW read_input_dfW

/-- C4: the split is deterministic and order-preserving: the held-out
fraction defaults to `1/4`; on success the training labels are exactly
the initial block, the test labels exactly the final block (their
concatenation restores the original order), the feature partitions are
the imputed initial and final blocks of the raw matrix, whose
concatenation is the whole raw matrix; and any two runs on the same
input agree. -/
theorem split_deterministic_ordered :
    (∀ df, read_input df = read_input df (1/4)) ∧
    ∀ (df : DataFrame) (t : ℚ) (r : ReadResult), read_input df t = some r →
      ∃ nTr nTe, splitSizes (rawX df).length t = some (nTr, nTe) ∧
        r.trainY = (rawY df).take nTr ∧
        r.testY = (rawY df).drop nTr ∧
        r.trainY ++ r.testY = rawY df ∧
        r.trainX = SimpleImputer.transform
          (SimpleImputer.fit ((rawX df).take nTr) (numericIndices df).length)
          (numericIndices df).length ((rawX df).take nTr) ∧
        r.testX = SimpleImputer.transform
          (SimpleImputer.fit ((rawX df).take nTr) (numericIndices df).length)
          (numericIndices df).length ((rawX df).drop nTr) ∧
        (rawX df).take nTr ++ (rawX df).drop nTr = rawX df ∧
        ∀ r2, read_input df t = some r2 → r2 = r := by
  refine ⟨fun df => rfl, ?_⟩
  intro df t r h
  obtain ⟨nTr, nTe, hs, hY1, hY2, hX1, hX2, _⟩ := read_input_inv h
  refine ⟨nTr, nTe, hs, hY1, hY2, ?_, hX1, hX2, List.take_append_drop _ _, ?_⟩
  · rw [hY1, hY2, List.take_append_drop]
  · intro r2 h2
    rw [h] at h2
    exact (Option.some.inj h2).symm

/-- Witness for C4: the fixture run splits into the initial and final
row blocks. -/
theorem split_deterministic_ordered_witness :
    resW.trainY ++ resW.testY = rawY dfW := by
  obtain ⟨_, _, _, _, _, happ, _⟩ :=
    split_deterministic_ordered.2 dfW (1/4) resW read_input_dfW
  exact happ

/-- C5: no missing values remain in either partition's feature matrix
after the imputer fitted on the training partition is applied. -/
theorem no_missing_after_imputation (df : DataFrame) (t : ℚ) (r : ReadResult)
    (h : read_input df t = some r) :
    (∀ row ∈ r.trainX, ∀ c ∈ row, c.isSome) ∧
    (∀ row ∈ r.testX, ∀ c ∈ row, c.isSome) := by
  obtain ⟨nTr, nTe, _, _, _, hX1, hX2, _⟩ := read_input_inv h
  constructor
  · rw [hX1]
    exact transform_isSome _ _ _
  · rw [hX2]
    exact transform_isSome _ _ _

/-- Witness for C5: every cell of the fixture's imputed matrices is
present. -/
theorem no_missing_after_imputation_witness :
    (∀ row ∈ resW.trainX, ∀ c ∈ row, c.isSome) ∧
    (∀ row ∈ resW.testX, ∀ c ∈ row, c.isSome) :=
  no_missing_after_imputation dfW (1/4) resW read_input_dfW

/-- C6: rows with a missing target are discarded before the split (the
surviving rows are exactly those with a present `SalePrice`, and every
label of both partitions is present), and the modelled feature columns
are exactly non-object-typed ones. -/
theorem target_dropped_numeric_only (df : DataFrame) (t : ℚ) (r : ReadResult)
    (h : read_input df t = some r) :
    (∀ c ∈ r.trainY, c.isSome) ∧ (∀ c ∈ r.testY, c.isSome) ∧
    (∀ row ∈ droppedRows df, row.salePrice.isSome) ∧
    (∀ row ∈ df.rows, row.salePrice.isSome → row ∈ droppedRows df) ∧
    (∀ i ∈ numericIndices df, df.isObjectCol.getD i true = false) := by
  obtain ⟨nTr, nTe, _, hY1, hY2, _, _, _⟩ := read_input_inv h
  have hsur : ∀ c ∈ rawY df, c.isSome := by
    intro c hc
    simp only [rawY, List.mem_map] at hc
    obtain ⟨row, hrow, rfl⟩ := hc
    exact (List.mem_filter.mp hrow).2
  refine ⟨?_, ?_, ?_, ?_, ?_⟩
  · intro c hc
    exact hsur c (List.take_subset _ _ (hY1 ▸ hc))
  · intro c hc
    exact hsur c (List.drop_subset _ _ (hY2 ▸ hc))
  · intro row hrow
    exact (List.mem_filter.mp hrow).2
  · intro row hrow hsp
    exact List.mem_filter.mpr ⟨hrow, hsp⟩
  · intro i hi
    have hb := (List.mem_filter.mp hi).2
    simpa using hb

/-- Witness for C6: on the fixture all labels are present and the single
feature column is numeric. -/
theorem target_dropped_numeric_only_witness :
    (∀ c ∈ resW.trainY, c.isSome) ∧ (∀ c ∈ resW.testY, c.isSome) ∧
    (∀ row ∈ droppedRows dfW, row.salePrice.isSome) ∧
    (∀ row ∈ dfW.rows, row.salePrice.isSome → row ∈ droppedRows dfW) ∧
    (∀ i ∈ numericIndices dfW, dfW.isObjectCol.getD i true = false) :=
  target_dropped_numeric_only dfW (1/4) resW read_input_dfW

/-- Uploading right after saving the same file: the local file is found
and either mirrored into the bucket (network up) or nothing happens
(network down); the local disk is never touched by the upload. -/
theorem upload_after_save (bkt file : String) (m : Model) (netOk : Bool) (w : World) :
    upload_file_to_gcs bkt file file netOk (save_model m file w) =
      (if netOk then
        ({ localDisk := (file, m) :: w.localDisk,
           bucket := (bkt, file, m) :: w.bucket }, true)
       else ({ localDisk := (file, m) :: w.localDisk, bucket := w.bucket }, false)) := by
  unfold upload_file_to_gcs save_model
  simp [List.lookup]

/-- C7: `HousingServe.train` serializes the model to the local
`self.model_file` strictly before the upload begins (the event trace is
the save followed by the upload attempt), uploads the local file under
the same remote key, and on upload failure leaves the saved local file
in place unchanged (no rollback): the bucket is untouched while the
local disk still holds the model under `self.model_file`. -/
theorem train_saves_locally_before_upload (s : HousingState) (df : DataFrame)
    (fitRegressor : List (List Cell) → List Cell → List (List Cell) → List Cell →
      ℕ → ℚ → Model)
    (netOk : Bool) (gcsBucketId : String) (w : World) (res : ReadResult)
    (h : read_input df = some res) :
    (HousingServe.train s df fitRegressor netOk gcsBucketId w).events =
      [TrainEvent.saveLocal s.model_file,
       TrainEvent.uploadToBucket gcsBucketId s.model_file s.model_file] ∧
    (HousingServe.train s df fitRegressor netOk gcsBucketId w).world.localDisk =
      (s.model_file, fitRegressor res.trainX res.trainY res.testX res.testY
        s.n_estimators s.learning_rate) :: w.localDisk ∧
    (HousingServe.train s df fitRegressor netOk gcsBucketId w).world.localDisk.lookup
        s.model_file =
      some (fitRegressor res.trainX res.trainY res.testX res.testY
        s.n_estimators s.learning_rate) ∧
    ((HousingServe.train s df fitRegressor netOk gcsBucketId w).ok = false →
      (HousingServe.train s df fitRegressor netOk gcsBucketId w).world.bucket =
        w.bucket) ∧
    ((HousingServe.train s df fitRegressor netOk gcsBucketId w).ok = true →
      (HousingServe.train s df fitRegressor netOk gcsBucketId w).world.bucket =
        (gcsBucketId, s.model_file, fitRegressor res.trainX res.trainY res.testX
          res.testY s.n_estimators s.learning_rate) :: w.bucket) := by
  unfold HousingServe.train
  rw [h]
  simp only [upload_after_save]
  cases netOk with
  | false => simp [List.lookup]
  | true => simp [List.lookup]

/-- Witness for C7: a failing upload on the fixture leaves the saved
local model in place and the bucket untouched. -/
theorem train_saves_locally_before_upload_witness :
    (HousingServe.train HousingServe.init dfW (fun _ _ _ _ _ _ => mW) false
        "demo-bucket" wEmpty).events =
      [TrainEvent.saveLocal HousingServe.init.model_file,
       TrainEvent.uploadToBucket "demo-bucket" HousingServe.init.model_file
         HousingServe.init.model_file] ∧
    (HousingServe.train HousingServe.init dfW (fun _ _ _ _ _ _ => mW) false
        "demo-bucket" wEmpty).world.localDisk =
      (HousingServe.init.model_file, mW) :: wEmpty.localDisk ∧
    (HousingServe.train HousingServe.init dfW (fun _ _ _ _ _ _ => mW) false
        "demo-bucket" wEmpty).world.localDisk.lookup HousingServe.init.model_file =
      some mW ∧
    ((HousingServe.train HousingServe.init dfW (fun _ _ _ _ _ _ => mW) false
        "demo-bucket" wEmpty).ok = false →
      (HousingServe.train HousingServe.init dfW (fun _ _ _ _ _ _ => mW) false
        "demo-bucket" wEmpty).world.bucket = wEmpty.bucket) ∧
    ((HousingServe.train HousingServe.init dfW (fun _ _ _ _ _ _ => mW) false
        "demo-bucket" wEmpty).ok = true →
      (HousingServe.train HousingServe.init dfW (fun _ _ _ _ _ _ => mW) false
        "demo-bucket" wEmpty).world.bucket =
        ("demo-bucket", HousingServe.init.model_file, mW) :: wEmpty.bucket) :=
  train_saves_locally_before_upload HousingServe.init dfW (fun _ _ _ _ _ _ => mW)
    false "demo-bucket" wEmpty resW read_input_dfW

/-- C10: `HousingServe.predict` ignores its `feature_names` argument
entirely: for the same object state, world and input matrix, any two
values of `feature_names` give the same returned value and the same
resulting object state. -/
theorem predict_ignores_feature_names (s : HousingState) (w : World)
    (X : List (List ℚ)) (fn1 fn2 : List String) :
    HousingServe.predict s w X fn1 = HousingServe.predict s w X fn2 := rfl

/-- C9: the model is deserialized lazily and at most once: `__init__`
leaves `trained_model` unset; a call with a cached model leaves the
object state completely unchanged (so the cached model is never
replaced); `predict` depends only on the local disk, never on the
remote bucket; and a first call sets `trained_model` to exactly what the
local file `self.model_file` holds. -/
theorem predict_lazy_load_once :
    HousingServe.init.trained_model = none ∧
    (∀ (s : HousingState) (w : World) (X : List (List ℚ)) (fn : List String)
       (m : Model), s.trained_model = some m →
       (HousingServe.predict s w X fn).2 = s) ∧
    (∀ (s : HousingState) (w1 w2 : World) (X : List (List ℚ)) (fn : List String),
       w1.localDisk = w2.localDisk →
       HousingServe.predict s w1 X fn = HousingServe.predict s w2 X fn) ∧
    (∀ (s : HousingState) (w : World) (X : List (List ℚ)) (fn : List String),
       s.trained_model = none →
       (HousingServe.predict s w X fn).2.trained_model =
         w.localDisk.lookup s.model_file) := by
  refine ⟨rfl, ?_, ?_, ?_⟩
  · intro s w X fn m hm
    simp only [HousingServe.predict, hm]
    cases (m X).head? <;> rfl
  · intro s w1 w2 X fn hw
    cases hm : s.trained_model with
    | some m => simp only [HousingServe.predict, hm]
    | none => simp only [HousingServe.predict, hm, hw]
  · intro s w X fn hm
    simp only [HousingServe.predict, hm]
    cases hl : w.localDisk.lookup s.model_file with
    | none => simp [hm]
    | some m =>
      show (match (m X).head? with
        | some p => (some [[p, p]], { s with trained_model := some m })
        | none => (none, { s with trained_model := some m })).2.trained_model = some m
      cases (m X).head? <;> rfl

/-- Witness for C9: a first call on a fresh object against an empty
local disk leaves `trained_model` equal to the (absent) file content. -/
theorem predict_lazy_load_once_witness :
    (HousingServe.predict HousingServe.init wEmpty [[1]] []).2.trained_model =
      wEmpty.localDisk.lookup HousingServe.init.model_file :=
  predict_lazy_load_once.2.2.2 HousingServe.init wEmpty [[1]] [] rfl

/-- C8: serialize/deserialize round trip preserves predictive behaviour:
after `save_model` writes the model to `self.model_file`, a predict call
that deserializes it behaves exactly like a predict call on the same
object holding the original in-memory model. -/
theorem serialize_roundtrip_preserves_predictions (m : Model) (s : HousingState)
    (w : World) (X : List (List ℚ)) (fn : List String)
    (h : s.trained_model = none) :
    HousingServe.predict s (save_model m s.model_file w) X fn =
      HousingServe.predict { s with trained_model := some m }
        (save_model m s.model_file w) X fn := by
  simp only [HousingServe.predict, h, save_model, List.lookup]
  rw [beq_self_eq_true]

/-- Witness for C8: round trip at a concrete model and input. -/
theorem serialize_roundtrip_preserves_predictions_witness :
    HousingServe.predict HousingServe.init
        (save_model mW HousingServe.init.model_file wEmpty) [[1]] [] =
      HousingServe.predict { HousingServe.init with trained_model := some mW }
        (save_model mW HousingServe.init.model_file wEmpty) [[1]] [] :=
  serialize_roundtrip_preserves_predictions mW HousingServe.init wEmpty [[1]] [] rfl

/-- C1 counterexample: the output of `predict` is not one duplicated
pair per input row.  At a model predicting the first feature and the
two-row input `[[1], [2]]`, the returned value is the single pair
`[[1, 1]]`, whose length 1 differs from the 2 input rows. -/
theorem predict_not_pair_per_row :
    ¬ (∀ (m : Model) (s : HousingState) (w : World) (X : List (List ℚ))
        (fn : List String), s.trained_model = some m →
        ∃ out, (HousingServe.predict s w X fn).1 = some out ∧
          out.length = X.length ∧
          ∀ i, i < X.length →
            out.getD i [] = [(m X).getD i 0, (m X).getD i 0]) := by
  intro h
  obtain ⟨out, h1, h2, _⟩ := h mW sLoaded wEmpty [[1], [2]] [] rfl
  have he : (HousingServe.predict sLoaded wEmpty [[1], [2]] []).1 = some [[1, 1]] := rfl
  rw [he] at h1
  rw [(Option.some.inj h1).symm] at h2
  exact absurd h2 (by decide)

/-- C1 (amended): with a loaded model and a nonempty prediction vector,
`predict` returns the single two-element pair `[[p, p]]` where `p` is
the prediction for the first row, regardless of how many rows `X` has,
and leaves the object state unchanged. -/
theorem predict_single_duplicated_pair (m : Model) (s : HousingState) (w : World)
    (X : List (List ℚ)) (fn : List String) (p : ℚ)
    (hm : s.trained_model = some m) (hp : (m X).head? = some p) :
    HousingServe.predict s w X fn = (some [[p, p]], s) := by
  simp only [HousingServe.predict, hm, hp]

/-- Witness for the amended C1: concrete two-row input, output is the
one duplicated pair holding the first row's prediction. -/
theorem predict_single_duplicated_pair_witness :
    HousingServe.predict sLoaded wEmpty [[1], [2]] [] = (some [[1, 1]], sLoaded) :=
  predict_single_duplicated_pair mW sLoaded wEmpty [[1], [2]] [] 1 rfl rfl

end AmesNotebook
